import Mathlib

/-!
Verification of the stream-where server (the third, current variant in the
repository's backend source: in-memory cache, quota tracking, /api/search,
/api/providers/:imdbId, the bundle endpoint and its two helper functions).

The JavaScript code is shallowly embedded: each stateful operation becomes a
Lean function from an explicit server state (cache plus API-usage counters)
and an upstream-response oracle to a result, a new state, and the number of
upstream network calls issued.  Time is an explicit `now : Nat` parameter
(milliseconds, as `Date.now()`).  The `Promise.all` fan-outs of the bundle
endpoint are modelled sequentially; the upstream oracles are deterministic
functions of the request, so the observable results coincide.
-/

/-- 24h TTL in milliseconds, `CACHE_TTL` in the source. -/
def CACHE_TTL : Nat := 24 * 60 * 60 * 1000

/-- 24h in milliseconds, `oneDayMs` in `checkOmdbReset`. -/
def oneDayMs : Nat := 24 * 60 * 60 * 1000

/-- A movie summary as produced by the search mapping
`{ id: movie.imdbID, title: movie.Title, year: movie.Year, poster: movie.Poster }`. -/
structure MovieSummary where
  id : String
  title : String
  year : String
  poster : String
deriving DecidableEq, Repr

/-- A raw OMDb search record (fields `imdbID`, `Title`, `Year`, `Poster`). -/
structure OmdbMovie where
  imdbID : String
  Title : String
  Year : String
  Poster : String
deriving DecidableEq, Repr

/-- The `service` sub-object of a raw streaming option (`service.id`,
`service.name`); `name` may be absent. -/
structure ServiceRef where
  id : String
  name : Option String
deriving DecidableEq, Repr

/-- A raw streaming option record from the availability upstream; classified by
its `type` field.  The `service` object may be absent (`provider.service?`). -/
structure StreamingOption where
  type : String
  service : Option ServiceRef
deriving DecidableEq, Repr

/-- The providers payload shape: `link` is `none` when the JSON object has no
`link` field (the bundle helper's cached shape omits it), `notFound` models the
presence of `notFound: true`, and `message` the degraded-payload message. -/
structure AvailBody where
  link : Option String
  flatrate : List StreamingOption
  rent : List StreamingOption
  buy : List StreamingOption
  notFound : Bool
  message : Option String
deriving DecidableEq, Repr

/-- A value stored in the shared cache `Map`: search results under
`search:<normalized query>` keys, provider payloads under `providers:<imdbId>`
keys. -/
inductive CacheValue where
  | searchV (results : List MovieSummary)
  | providersV (body : AvailBody)
deriving DecidableEq, Repr

/-- The cache `Map`, as a key-unique association list of
(key, storedAt-timestamp, value).  JS `Map` keys are unique; insertion order is
irrelevant here (no modelled operation iterates the map). -/
abbrev Cache := List (String × Nat × CacheValue)

/-- Look a key up in the cache (JS `cache.get(key)`), returning the stored
timestamp and value. -/
def cacheLookup (c : Cache) (k : String) : Option (Nat × CacheValue) :=
  (c.find? (fun e => e.1 == k)).map (fun e => e.2)

/-- JS `cache.delete(key)`: with unique keys, removing every binding of `k`
coincides with removing the single one. -/
def cacheDeleteKey (c : Cache) (k : String) : Cache :=
  c.filter (fun e => e.1 != k)

/-- `setCache(key, data)`: replaces any existing entry wholesale and stamps the
current time. -/
def setCache (c : Cache) (k : String) (now : Nat) (v : CacheValue) : Cache :=
  (k, now, v) :: cacheDeleteKey c k

/-- `getFromCache(key)`: absent if missing; if present but
`now - timestamp > CACHE_TTL`, the entry is deleted and absent is returned.
The possibly-modified cache is returned alongside the value. -/
def getFromCache (c : Cache) (k : String) (now : Nat) : Option CacheValue × Cache :=
  match cacheLookup c k with
  | none => (none, c)
  | some (t, v) => if now - t > CACHE_TTL then (none, cacheDeleteKey c k) else (some v, c)

/-- The `apiUsage` global: RapidAPI telemetry and the OMDb daily counter. -/
structure ApiUsage where
  rapidRemaining : Option Int
  rapidLimit : Option Int
  omdbDailyCount : Nat
  omdbLastReset : Nat
deriving DecidableEq, Repr

/-- The mutable server state threaded through every handler. -/
structure ServerState where
  cache : Cache
  usage : ApiUsage
deriving DecidableEq, Repr

/-- `checkOmdbReset()`: zero the daily counter when more than a day has passed
since the last reset. -/
def checkOmdbResetU (u : ApiUsage) (now : Nat) : ApiUsage :=
  if now - u.omdbLastReset > oneDayMs then
    { u with omdbDailyCount := 0, omdbLastReset := now }
  else u

/-- RapidAPI rate-limit response headers, already parsed to integers (the
source's truthiness test plus `parseInt` on the header strings). -/
structure RapidHeaders where
  remaining : Option Int
  limit : Option Int
deriving DecidableEq, Repr

/-- `updateRapidApiUsage(headers)`: record whichever telemetry headers are
present. -/
def updateRapidApiUsage (u : ApiUsage) (h : RapidHeaders) : ApiUsage :=
  let u1 := match h.remaining with
    | some r => { u with rapidRemaining := some r }
    | none => u
  match h.limit with
  | some l => { u1 with rapidLimit := some l }
  | none => u1

/-- JS string truthiness on an optional string: absent and the empty string are
falsy. -/
def optTruthy : Option String → Option String
  | some s => if s == "" then none else some s
  | none => none

/-- JS `x || ""` on an optional string (absent and "" both yield ""). -/
def jsStrOrEmpty (s : Option String) : String := s.getD ""

/-- JS `s || null` on a string: the empty string becomes null/absent. -/
def jsStrOrNone (s : String) : Option String := if s == "" then none else some s

/-- Whether `pat` occurs at the start of `l`. -/
def charsStartWith : List Char → List Char → Bool
  | [], _ => true
  | _ :: _, [] => false
  | a :: as, b :: bs => a == b && charsStartWith as bs

/-- JS `String.prototype.includes`: contiguous-substring test. -/
def strIncludes (s pat : String) : Bool :=
  go s.toList
where
  go : List Char → Bool
    | [] => charsStartWith pat.toList []
    | c :: rest => charsStartWith pat.toList (c :: rest) || go rest

/-- The search cache key: `search:` followed by the lower-cased, trimmed
query. -/
def searchKeyOf (q : String) : String := "search:" ++ (q.toLower.trim)

/-- The providers cache key: `providers:` followed by the raw imdb id. -/
def providersKeyOf (imdbId : String) : String := "providers:" ++ imdbId

/-- An OMDb upstream exchange: either a 200 body (OMDb signals errors inside
the body via an `Error` string, and carries results in `Search`), or an axios
throw carrying an optional HTTP status. -/
inductive OmdbResponse where
  | ok (err : Option String) (search : Option (List OmdbMovie))
  | httpError (status : Option Nat)
deriving DecidableEq, Repr

/-- A streaming-availability upstream exchange: a 200 body
(`imdbLink`, `streamingOptions.in`, rate-limit headers) or an axios throw with
an optional HTTP status. -/
inductive RapidResponse where
  | ok (imdbLink : Option String) (optionsIn : Option (List StreamingOption))
      (headers : RapidHeaders)
  | httpError (status : Option Nat)
deriving DecidableEq, Repr

/-- Map a raw OMDb record to the clean format returned by the server. -/
def toSummary (m : OmdbMovie) : MovieSummary :=
  { id := m.imdbID, title := m.Title, year := m.Year, poster := m.Poster }

/-- Responses of `GET /api/search`.  `okBody` is `res.json(...)` of either the
fresh result list or whatever the cache held. -/
inductive SearchResp where
  | okBody (v : CacheValue)
  | badRequest
  | rateLimitedResp
  | authInvalid
  | serverError
deriving DecidableEq, Repr

/-- The `GET /api/search` handler.  Returns the response, the new server state
and the number of upstream calls issued (0 or 1).  An empty query models the
missing/falsy `req.query.q`. -/
def searchHandler (q : String) (st : ServerState) (now : Nat)
    (σ : String → OmdbResponse) : SearchResp × ServerState × Nat :=
  if q == "" then (.badRequest, st, 0) else
  let key := searchKeyOf q
  let g := getFromCache st.cache key now
  match g.1 with
  | some v => (.okBody v, { st with cache := g.2 }, 0)
  | none =>
    let u := checkOmdbResetU st.usage now
    match σ q with
    | .httpError s =>
      if s == some 401 then (.authInvalid, ⟨g.2, u⟩, 1) else (.serverError, ⟨g.2, u⟩, 1)
    | .ok e srch =>
      let u1 := { u with omdbDailyCount := u.omdbDailyCount + 1 }
      match optTruthy e with
      | some msg =>
        if strIncludes msg "limit" || strIncludes msg "Request limit" then
          (.rateLimitedResp, ⟨g.2, u1⟩, 1)
        else
          (.okBody (.searchV []), ⟨g.2, u1⟩, 1)
      | none =>
        match srch with
        | none => (.serverError, ⟨g.2, u1⟩, 1)
        | some lst =>
          let results := (lst.take 5).map toSummary
          (.okBody (.searchV results), ⟨setCache g.2 key now (.searchV results), u1⟩, 1)

/-- The success body built by the `/api/providers/:imdbId` route:
`{ link: imdbLink || "", flatrate, rent, buy }` with classification of
`streamingOptions.in` by exact equality on `type`. -/
def classifyBody (link : Option String) (optionsIn : Option (List StreamingOption)) : AvailBody :=
  let io := optionsIn.getD []
  { link := some (jsStrOrEmpty link)
  , flatrate := io.filter (fun o => o.type == "subscription")
  , rent := io.filter (fun o => o.type == "rent")
  , buy := io.filter (fun o => o.type == "buy")
  , notFound := false
  , message := none }

/-- The success body built and cached by the bundle helper
`getProvidersForMovie`: same classification, but with no `link` field. -/
def helperBody (optionsIn : Option (List StreamingOption)) : AvailBody :=
  let io := optionsIn.getD []
  { link := none
  , flatrate := io.filter (fun o => o.type == "subscription")
  , rent := io.filter (fun o => o.type == "rent")
  , buy := io.filter (fun o => o.type == "buy")
  , notFound := false
  , message := none }

/-- The empty fallback `{ flatrate: [], rent: [], buy: [] }` returned by the
bundle helper on a tolerated upstream failure. -/
def emptyAvail : AvailBody :=
  { link := none, flatrate := [], rent := [], buy := [], notFound := false, message := none }

/-- The route's 404 body `{ flatrate: [], rent: [], buy: [], notFound: true }`. -/
def notFoundAvail : AvailBody :=
  { link := none, flatrate := [], rent := [], buy := [], notFound := true, message := none }

/-- The route's degraded body
`{ flatrate: [], rent: [], buy: [], message: "Provider data unavailable" }`. -/
def unavailableAvail : AvailBody :=
  { link := none, flatrate := [], rent := [], buy := [], notFound := false
  , message := some "Provider data unavailable" }

/-- Responses of `GET /api/providers/:imdbId`. -/
inductive ProvResp where
  | okBody (v : AvailBody)
  /-- `res.json(cached)` when the cache unexpectedly held a search value; keys
  are prefix-disjoint, so this branch is unreachable in practice. -/
  | otherCached (rs : List MovieSummary)
  | errorStatus (code : Nat)
deriving DecidableEq, Repr

/-- The `GET /api/providers/:imdbId` handler. -/
def providersHandler (imdbId : String) (st : ServerState) (now : Nat)
    (π : String → RapidResponse) : ProvResp × ServerState × Nat :=
  let key := providersKeyOf imdbId
  let g := getFromCache st.cache key now
  match g.1 with
  | some (.providersV v) => (.okBody v, { st with cache := g.2 }, 0)
  | some (.searchV rs) => (.otherCached rs, { st with cache := g.2 }, 0)
  | none =>
    match π imdbId with
    | .ok link opts hdrs =>
      let u := updateRapidApiUsage st.usage hdrs
      let body := classifyBody link opts
      (.okBody body, ⟨setCache g.2 key now (.providersV body), u⟩, 1)
    | .httpError s =>
      if s == some 429 then (.errorStatus 429, ⟨g.2, st.usage⟩, 1)
      else if s == some 402 then (.errorStatus 402, ⟨g.2, st.usage⟩, 1)
      else if s == some 403 then (.errorStatus 403, ⟨g.2, st.usage⟩, 1)
      else if s == some 404 then (.okBody notFoundAvail, ⟨g.2, st.usage⟩, 1)
      else (.okBody unavailableAvail, ⟨g.2, st.usage⟩, 1)

/-- The bundle helper `getProvidersForMovie(imdbId)`.  On a 429 or 402 upstream
status it throws an error carrying that status (`Except.error`); any other
upstream failure is swallowed into `{ flatrate: [], rent: [], buy: [] }`.
A `providers:` key only ever stores a providers value, so the search-value
cache branch (unreachable in practice) returns the empty fallback. -/
def getProvidersForMovie (imdbId : String) (st : ServerState) (now : Nat)
    (π : String → RapidResponse) : Except Nat AvailBody × ServerState × Nat :=
  let key := providersKeyOf imdbId
  let g := getFromCache st.cache key now
  match g.1 with
  | some (.providersV v) => (.ok v, { st with cache := g.2 }, 0)
  | some (.searchV _) => (.ok emptyAvail, { st with cache := g.2 }, 0)
  | none =>
    match π imdbId with
    | .ok _link opts hdrs =>
      let u := updateRapidApiUsage st.usage hdrs
      let body := helperBody opts
      (.ok body, ⟨setCache g.2 key now (.providersV body), u⟩, 1)
    | .httpError s =>
      if s == some 429 then (.error 429, ⟨g.2, st.usage⟩, 1)
      else if s == some 402 then (.error 402, ⟨g.2, st.usage⟩, 1)
      else (.ok emptyAvail, ⟨g.2, st.usage⟩, 1)

/-- The bundle helper `searchMovie(query)`: first cached result if the cached
list is non-empty; otherwise one upstream call.  Every upstream failure —
including OMDb rate-limit error bodies — yields `null` (`none`). -/
def searchMovie (q : String) (st : ServerState) (now : Nat)
    (σ : String → OmdbResponse) : Option MovieSummary × ServerState × Nat :=
  let key := searchKeyOf q
  let g := getFromCache st.cache key now
  match g.1 with
  | some (.searchV (m :: _)) => (some m, { st with cache := g.2 }, 0)
  | _ =>
    let st1 : ServerState := { st with cache := g.2 }
    match σ q with
    | .httpError _ => (none, st1, 1)
    | .ok e srch =>
      match optTruthy e with
      | some _ => (none, st1, 1)
      | none =>
        match srch with
        | none => (none, st1, 1)
        | some [] => (none, st1, 1)
        | some (m :: ms) =>
          let results := (((m :: ms)).take 5).map toSummary
          (results.head?, { st1 with cache := setCache st1.cache key now (.searchV results) }, 1)

/-- One entry of the bundle's step-1 `movieResults` array: the query name plus
the resolved summary, or `none` for `{ name, notFound: true }`. -/
structure MovieResult where
  name : String
  found : Option MovieSummary
deriving DecidableEq, Repr

/-- One entry of `moviesWithProviders`: `providers` is `null` (`none`) exactly
for unresolved movies. -/
structure MovieWith where
  name : String
  found : Option MovieSummary
  providers : Option AvailBody
deriving DecidableEq, Repr

/-- Bundle step 1: resolve every name through `searchMovie`, threading the
shared state; a name that fails to resolve is marked not found rather than
aborting the batch. -/
def resolveAll : List String → ServerState → Nat → (String → OmdbResponse) →
    List MovieResult × ServerState × Nat
  | [], st, _, _ => ([], st, 0)
  | n :: ns, st, now, σ =>
    let r := searchMovie n st now σ
    let rest := resolveAll ns r.2.1 now σ
    (⟨n, r.1⟩ :: rest.1, rest.2.1, r.2.2 + rest.2.2)

/-- Bundle step 2: fetch providers for every resolved movie; a thrown 429/402
from `getProvidersForMovie` rejects the whole batch. -/
def fetchProviders : List MovieResult → ServerState → Nat → (String → RapidResponse) →
    Except Nat (List MovieWith) × ServerState × Nat
  | [], st, _, _ => (.ok [], st, 0)
  | r :: rs, st, now, π =>
    match r.found with
    | none =>
      let rest := fetchProviders rs st now π
      match rest.1 with
      | .error s => (.error s, rest.2.1, rest.2.2)
      | .ok l => (.ok (⟨r.name, none, none⟩ :: l), rest.2.1, rest.2.2)
    | some m =>
      let p := getProvidersForMovie m.id st now π
      match p.1 with
      | .error s => (.error s, p.2.1, p.2.2)
      | .ok v =>
        let rest := fetchProviders rs p.2.1 now π
        match rest.1 with
        | .error s2 => (.error s2, rest.2.1, p.2.2 + rest.2.2)
        | .ok l => (.ok (⟨r.name, some m, some v⟩ :: l), rest.2.1, p.2.2 + rest.2.2)

/-- The display key of one flatrate provider:
`provider.service?.name || provider.service?.id`, skipped when falsy. -/
def displayKey (o : StreamingOption) : Option String :=
  match optTruthy (o.service.bind (fun s => s.name)) with
  | some n => some n
  | none => optTruthy (o.service.map (fun s => s.id))

/-- `movie.title` as read while building `serviceMovieMap` (only reached for
resolved movies, whose spread carries the summary's title). -/
def titleOf (m : MovieWith) : String :=
  match m.found with
  | some s => s.title
  | none => ""

/-- Add one movie title under one service of `serviceMovieMap`, creating the
key at the end on first encounter and deduplicating titles
(`includes` check before `push`).  The association list models a JS object
with non-array-index string keys, whose enumeration order is insertion
order. -/
def addTitleOnce : List (String × List String) → String → String → List (String × List String)
  | [], svc, t => [(svc, [t])]
  | (k, ts) :: rest, svc, t =>
    if k == svc then (k, if ts.contains t then ts else ts ++ [t]) :: rest
    else (k, ts) :: addTitleOnce rest svc t

/-- Fold one movie's flatrate options into the map. -/
def addMovieToMap (acc : List (String × List String)) (title : String)
    (flat : List StreamingOption) : List (String × List String) :=
  flat.foldl (fun a o =>
    match displayKey o with
    | some svc => addTitleOnce a svc title
    | none => a) acc

/-- Bundle step 3: `serviceMovieMap`, scanning movies in input order. -/
def buildServiceMap (ms : List MovieWith) : List (String × List String) :=
  ms.foldl (fun acc m =>
    match m.providers with
    | some p => addMovieToMap acc (titleOf m) p.flatrate
    | none => acc) []

/-- `Math.round((movieList.length / movies.length) * 100)` in exact integer
arithmetic: round-half-up of `100 * count / total`, i.e.
`(200 * count + total) / (2 * total)`.  For the reachable range
(`count ≤ total ≤ 10`) the IEEE-double evaluation in the source agrees with
exact rational rounding.  (`total = 0` is unreachable: the handler validates
the list length first.) -/
def jsCoverage (count total : Nat) : Nat := (200 * count + total) / (2 * total)

/-- One entry of `serviceRanking`. -/
structure ServiceEntry where
  service : String
  movieCount : Nat
  movies : List String
  coverage : Nat
deriving DecidableEq, Repr

/-- Map one `serviceMovieMap` entry to a ranking entry. -/
def toServiceEntry (total : Nat) (e : String × List String) : ServiceEntry :=
  { service := e.1, movieCount := e.2.length, movies := e.2
  , coverage := jsCoverage e.2.length total }

/-- The ranking entries in first-encounter order, before sorting. -/
def serviceEntriesOf (ms : List MovieWith) (total : Nat) : List ServiceEntry :=
  (buildServiceMap ms).map (toServiceEntry total)

/-- Insert an earlier entry into an already-sorted list of later entries,
before the first entry whose count does not exceed it. -/
def insertRanked (x : ServiceEntry) : List ServiceEntry → List ServiceEntry
  | [] => [x]
  | y :: ys => if x.movieCount < y.movieCount then y :: insertRanked x ys else x :: y :: ys

/-- `sort((a, b) => b.movieCount - a.movieCount)`: V8's `Array.prototype.sort`
is stable, and a stable sort with respect to a total preorder is unique, so
this stable insertion sort produces the same list. -/
def sortRanked : List ServiceEntry → List ServiceEntry
  | [] => []
  | x :: xs => insertRanked x (sortRanked xs)

/-- One entry of `movieDetails`. -/
structure MovieDetail where
  searchQuery : String
  title : Option String
  year : Option String
  found : Bool
  subscriptionServices : List String
deriving DecidableEq, Repr

/-- `movieDetails` entry:
`subscriptionServices` keeps only truthy `service?.name` values
(`.map(p => p.service?.name).filter(Boolean)`). -/
def toDetail (m : MovieWith) : MovieDetail :=
  { searchQuery := m.name
  , title := m.found.bind (fun s => jsStrOrNone s.title)
  , year := m.found.bind (fun s => jsStrOrNone s.year)
  , found := m.found.isSome
  , subscriptionServices :=
      match m.providers with
      | some p => p.flatrate.filterMap (fun o => optTruthy (o.service.bind (fun s => s.name)))
      | none => [] }

/-- All titles appearing under some service (`Object.values(map).flat()`). -/
def allMapTitles (m : List (String × List String)) : List String :=
  (m.map (fun e => e.2)).flatten

/-- Bundle step 5: titles of resolved movies on no subscription service. -/
def notOnAnySub (ms : List MovieWith) (map : List (String × List String)) : List String :=
  (ms.filter (fun m => m.found.isSome && !((allMapTitles map).contains (titleOf m)))).map titleOf

/-- The bundle response body. -/
structure BundleReport where
  totalMovies : Nat
  foundMovies : Nat
  notFoundMovies : List String
  bestService : Option ServiceEntry
  allServices : List ServiceEntry
  notOnAnySubscription : List String
  movieDetails : List MovieDetail
deriving DecidableEq, Repr

/-- Outcome of `POST /api/bundle`. -/
inductive BundleOutcome where
  | invalidInput
  | rateLimitedOut (code : Nat)
  | report (r : BundleReport)
deriving DecidableEq, Repr

/-- The `POST /api/bundle` handler. -/
def bundleHandler (movies : List String) (st : ServerState) (now : Nat)
    (σ : String → OmdbResponse) (π : String → RapidResponse) :
    BundleOutcome × ServerState × Nat :=
  if movies.length == 0 || movies.length > 10 then (.invalidInput, st, 0)
  else
    let r1 := resolveAll movies st now σ
    let r2 := fetchProviders r1.1 r1.2.1 now π
    match r2.1 with
    | .error s => (.rateLimitedOut (if s == 429 then 429 else 402), r2.2.1, r1.2.2 + r2.2.2)
    | .ok mp =>
      let map := buildServiceMap mp
      let ranking := sortRanked (serviceEntriesOf mp movies.length)
      (.report
        { totalMovies := movies.length
        , foundMovies := (r1.1.filter (fun m => m.found.isSome)).length
        , notFoundMovies := (r1.1.filter (fun m => m.found.isNone)).map (fun m => m.name)
        , bestService := ranking.head?
        , allServices := ranking
        , notOnAnySubscription := notOnAnySub mp map
        , movieDetails := mp.map toDetail }, r2.2.1, r1.2.2 + r2.2.2)

theorem cacheLookup_setCache_self (c : Cache) (k : String) (t : Nat) (v : CacheValue) :
    cacheLookup (setCache c k t v) k = some (t, v) := by
  simp [cacheLookup, setCache, List.find?]

theorem cacheDeleteKey_setCache_self (c : Cache) (k : String) (t : Nat) (v : CacheValue) :
    cacheDeleteKey (setCache c k t v) k = cacheDeleteKey c k := by
  simp [cacheDeleteKey, setCache, List.filter_filter]

theorem cacheLookup_deleteKey_self (c : Cache) (k : String) :
    cacheLookup (cacheDeleteKey c k) k = none := by
  simp [cacheLookup, cacheDeleteKey, Option.map_eq_none, List.find?_eq_none, List.mem_filter]

/-- C3: `get(k)` after `put(k, v)` returns `v` while less than the TTL has
elapsed; once more than the TTL has elapsed it returns absent, the entry is
gone, and the store's size has decreased by one. -/
theorem cache_put_get_ttl (c : Cache) (k : String) (v : CacheValue) (t now : Nat) :
    (now - t < CACHE_TTL → getFromCache (setCache c k t v) k now = (some v, setCache c k t v)) ∧
    (now - t > CACHE_TTL →
      (getFromCache (setCache c k t v) k now).1 = none ∧
      cacheLookup (getFromCache (setCache c k t v) k now).2 k = none ∧
      ((getFromCache (setCache c k t v) k now).2).length + 1 = (setCache c k t v).length) := by
  constructor
  · intro h
    have hnot : ¬ (now - t > CACHE_TTL) := by omega
    simp [getFromCache, cacheLookup_setCache_self, hnot]
  · intro h
    simp only [getFromCache, cacheLookup_setCache_self, if_pos h,
      cacheDeleteKey_setCache_self]
    refine ⟨trivial, cacheLookup_deleteKey_self c k, ?_⟩
    simp [setCache]

theorem cache_put_get_ttl_witness :
    getFromCache (setCache [] "k" 0 (.searchV [])) "k" 5 =
      (some (.searchV []), setCache [] "k" 0 (.searchV [])) ∧
    (getFromCache (setCache [] "k" 0 (.searchV [])) "k" (CACHE_TTL + 1)).1 = none ∧
    cacheLookup (getFromCache (setCache [] "k" 0 (.searchV [])) "k" (CACHE_TTL + 1)).2 "k" = none ∧
    ((getFromCache (setCache [] "k" 0 (.searchV [])) "k" (CACHE_TTL + 1)).2).length + 1 =
      (setCache [] "k" 0 (.searchV [])).length := by
  refine ⟨(cache_put_get_ttl [] "k" (.searchV []) 0 5).1 (by decide), ?_⟩
  exact (cache_put_get_ttl [] "k" (.searchV []) 0 (CACHE_TTL + 1)).2 (by decide)

/-- The empty initial server state (fresh process). -/
def stEmpty : ServerState := ⟨[], ⟨none, none, 0, 0⟩⟩

/-- An upstream that always answers with OMDb's no-match error body. -/
def omdbNoMatch : String → OmdbResponse := fun _ => .ok (some "Movie not found!") none

/-- C2 counterexample: the same query resolved twice within the TTL can issue
two upstream search calls — a no-match response is served as the empty list but
never written to the cache, so the second resolution calls upstream again. -/
theorem search_twice_two_upstream_calls :
    (searchHandler "zz" stEmpty 0 omdbNoMatch).2.2 = 1 ∧
    (searchHandler "zz" (searchHandler "zz" stEmpty 0 omdbNoMatch).2.1 5 omdbNoMatch).2.2 = 1 := by
  exact ⟨rfl, rfl⟩

/-- C2 (amended): for a query whose first resolution succeeds with a non-empty
result list, the result is cached under the normalized key and a second
resolution within the TTL is served from the cache with no upstream call, so
the pair issues exactly one upstream call in total. -/
theorem search_second_call_cached (q : String) (st : ServerState) (now now2 : Nat)
    (σ σ2 : String → OmdbResponse) (e : Option String) (m : OmdbMovie) (ms : List OmdbMovie)
    (hq : q ≠ "")
    (hmiss : (getFromCache st.cache (searchKeyOf q) now).1 = none)
    (hσ : σ q = .ok e (some (m :: ms)))
    (he : optTruthy e = none)
    (httl : now2 - now ≤ CACHE_TTL) :
    (searchHandler q st now σ).1 =
        .okBody (.searchV (((m :: ms).take 5).map toSummary)) ∧
    (searchHandler q st now σ).2.2 = 1 ∧
    (searchHandler q (searchHandler q st now σ).2.1 now2 σ2).1 =
        .okBody (.searchV (((m :: ms).take 5).map toSummary)) ∧
    (searchHandler q (searchHandler q st now σ).2.1 now2 σ2).2.2 = 0 := by
  have hq' : (q == "") = false := by simpa using hq
  have h1 : searchHandler q st now σ =
      (.okBody (.searchV (((m :: ms).take 5).map toSummary)),
        ⟨setCache (getFromCache st.cache (searchKeyOf q) now).2 (searchKeyOf q) now
            (.searchV (((m :: ms).take 5).map toSummary)),
          { checkOmdbResetU st.usage now with
              omdbDailyCount := (checkOmdbResetU st.usage now).omdbDailyCount + 1 }⟩, 1) := by
    simp only [searchHandler, hq', Bool.false_eq_true, if_false, hmiss, hσ, he]
  have hnot : ¬ (now2 - now > CACHE_TTL) := by omega
  have h2 : searchHandler q (searchHandler q st now σ).2.1 now2 σ2 =
      (.okBody (.searchV (((m :: ms).take 5).map toSummary)),
        (searchHandler q st now σ).2.1, 0) := by
    rw [h1]
    simp only [searchHandler, hq', Bool.false_eq_true, if_false, getFromCache,
      cacheLookup_setCache_self, if_neg hnot]
  exact ⟨by rw [h1], by rw [h1], by rw [h2], by rw [h2]⟩

theorem searchMovie_usage (q : String) (st : ServerState) (now : Nat)
    (σ : String → OmdbResponse) :
    ((searchMovie q st now σ).2.1).usage = st.usage := by
  unfold searchMovie
  dsimp only
  rcases hg : (getFromCache st.cache (searchKeyOf q) now).1 with _ | v
  · simp only [hg]
    repeat' split
    all_goals rfl
  · rcases v with rs | b
    · rcases rs with _ | ⟨m, tail⟩ <;>
        · simp only [hg]
          first
          | rfl
          | (repeat' split
             all_goals rfl)
    · simp only [hg]
      repeat' split
      all_goals rfl

theorem resolveAll_usage (names : List String) (st : ServerState) (now : Nat)
    (σ : String → OmdbResponse) :
    ((resolveAll names st now σ).2.1).usage = st.usage := by
  induction names generalizing st with
  | nil => rfl
  | cons n ns ih =>
    simp only [resolveAll]
    rw [ih]
    exact searchMovie_usage n st now σ

theorem updateRapidApiUsage_omdb (u : ApiUsage) (h : RapidHeaders) :
    (updateRapidApiUsage u h).omdbDailyCount = u.omdbDailyCount ∧
    (updateRapidApiUsage u h).omdbLastReset = u.omdbLastReset := by
  unfold updateRapidApiUsage
  repeat' split
  all_goals exact ⟨rfl, rfl⟩

theorem getProvidersForMovie_omdb (imdbId : String) (st : ServerState) (now : Nat)
    (π : String → RapidResponse) :
    ((getProvidersForMovie imdbId st now π).2.1).usage.omdbDailyCount
        = st.usage.omdbDailyCount ∧
    ((getProvidersForMovie imdbId st now π).2.1).usage.omdbLastReset
        = st.usage.omdbLastReset := by
  unfold getProvidersForMovie
  dsimp only
  rcases hg : (getFromCache st.cache (providersKeyOf imdbId) now).1 with _ | v
  · simp only [hg]
    rcases hp : π imdbId with ⟨l, opts, hdrs⟩ | s
    · simp only [hp]
      exact updateRapidApiUsage_omdb st.usage hdrs
    · simp only [hp]
      repeat' split
      all_goals exact ⟨rfl, rfl⟩
  · rcases v with rs | b <;> simp [hg]

theorem fetchProviders_omdb (rs : List MovieResult) (st : ServerState) (now : Nat)
    (π : String → RapidResponse) :
    ((fetchProviders rs st now π).2.1).usage.omdbDailyCount = st.usage.omdbDailyCount ∧
    ((fetchProviders rs st now π).2.1).usage.omdbLastReset = st.usage.omdbLastReset := by
  induction rs generalizing st with
  | nil => exact ⟨rfl, rfl⟩
  | cons r rest ih =>
    simp only [fetchProviders]
    rcases r with ⟨name, found⟩
    cases found with
    | none =>
      rcases h : (fetchProviders rest st now π).1 with s | l <;>
        simpa [h] using ih st
    | some m =>
      rcases hp : (getProvidersForMovie m.id st now π).1 with s | v
      · simpa [hp] using getProvidersForMovie_omdb m.id st now π
      · have h1 := getProvidersForMovie_omdb m.id st now π
        have h2 := ih (getProvidersForMovie m.id st now π).2.1
        rcases hr : (fetchProviders rest (getProvidersForMovie m.id st now π).2.1 now π).1
          with s2 | l <;> simp [hp, hr] <;> omega

theorem bundleHandler_omdbCount (movies : List String) (st : ServerState) (now : Nat)
    (σ : String → OmdbResponse) (π : String → RapidResponse) :
    ((bundleHandler movies st now σ π).2.1).usage.omdbDailyCount
      = st.usage.omdbDailyCount := by
  unfold bundleHandler
  dsimp only
  split
  · rfl
  · rcases hf : (fetchProviders (resolveAll movies st now σ).1
        (resolveAll movies st now σ).2.1 now π).1 with s | mp <;>
      simp only [hf] <;>
      · have h1 := (fetchProviders_omdb (resolveAll movies st now σ).1
          (resolveAll movies st now σ).2.1 now π).1
        have h2 := resolveAll_usage movies st now σ
        rw [h1, h2]

/-- C9: the bundle-path resolver `searchMovie` never touches the OMDb daily
counter, and neither does a whole bundle request; only the direct
`GET /api/search` handler increments it (by exactly one per upstream call,
after the lazy daily reset).  A `QuotaSnapshot` taken after a bundle request
therefore excludes every search call the bundle issued. -/
theorem omdb_counter_only_search_handler :
    (∀ q st now σ,
      ((searchMovie q st now σ).2.1).usage.omdbDailyCount = st.usage.omdbDailyCount) ∧
    (∀ movies st now σ π,
      ((bundleHandler movies st now σ π).2.1).usage.omdbDailyCount
        = st.usage.omdbDailyCount) ∧
    (∀ q st now σ e srch, q ≠ "" →
      (getFromCache st.cache (searchKeyOf q) now).1 = none →
      σ q = .ok e srch →
      ((searchHandler q st now σ).2.1).usage.omdbDailyCount
        = (checkOmdbResetU st.usage now).omdbDailyCount + 1) := by
  refine ⟨?_, ?_, ?_⟩
  · intro q st now σ
    exact congrArg ApiUsage.omdbDailyCount (searchMovie_usage q st now σ)
  · intro movies st now σ π
    exact bundleHandler_omdbCount movies st now σ π
  · intro q st now σ e srch hq hmiss hσ
    have hq' : (q == "") = false := by simpa using hq
    simp only [searchHandler, hq', Bool.false_eq_true, if_false, hmiss, hσ]
    repeat' split
    all_goals rfl

theorem omdb_counter_only_search_handler_witness :
    ((searchMovie "a" stEmpty 0 omdbNoMatch).2.1).usage.omdbDailyCount = 0 ∧
    ((bundleHandler ["a"] stEmpty 0 omdbNoMatch
        (fun _ => .httpError (some 500))).2.1).usage.omdbDailyCount = 0 ∧
    ((searchHandler "a" stEmpty 0 omdbNoMatch).2.1).usage.omdbDailyCount = 1 := by
  refine ⟨?_, ?_, ?_⟩
  · exact (omdb_counter_only_search_handler.1 "a" stEmpty 0 omdbNoMatch).trans rfl
  · exact (omdb_counter_only_search_handler.2.1 ["a"] stEmpty 0 omdbNoMatch
      (fun _ => .httpError (some 500))).trans rfl
  · exact (omdb_counter_only_search_handler.2.2 "a" stEmpty 0 omdbNoMatch
      (some "Movie not found!") none (by decide) rfl rfl).trans rfl

/-- An upstream that always answers with OMDb's rate-limit error body. -/
def omdbRateLimit : String → OmdbResponse := fun _ => .ok (some "Request limit reached!") none

/-- An availability upstream that always fails with HTTP 500. -/
def rapid500 : String → RapidResponse := fun _ => .httpError (some 500)

/-- C1 counterexample: when the search upstream reports its rate-limit error on
a bundle lookup, `POST /api/bundle` does not fail — it returns a full report in
which the movie is merely marked not found. -/
theorem bundle_search_rate_limit_not_propagated :
    (bundleHandler ["Oldboy"] stEmpty 0 omdbRateLimit rapid500).1 =
      .report
        { totalMovies := 1, foundMovies := 0, notFoundMovies := ["Oldboy"]
        , bestService := none, allServices := [], notOnAnySubscription := []
        , movieDetails := [{ searchQuery := "Oldboy", title := none, year := none
                           , found := false, subscriptionServices := [] }] } := by
  rfl

theorem searchMovie_rate_limit_body (q : String) (u : ApiUsage) (now : Nat)
    (σ : String → OmdbResponse)
    (hσ : σ q = .ok (some "Request limit reached!") none) :
    searchMovie q ⟨[], u⟩ now σ = (none, ⟨[], u⟩, 1) := by
  simp [searchMovie, getFromCache, cacheLookup, hσ, optTruthy]

theorem resolveAll_rate_limit_body (movies : List String) (u : ApiUsage) (now : Nat)
    (σ : String → OmdbResponse)
    (hσ : ∀ q, σ q = .ok (some "Request limit reached!") none) :
    resolveAll movies ⟨[], u⟩ now σ =
      (movies.map (fun n => ⟨n, none⟩), ⟨[], u⟩, movies.length) := by
  induction movies with
  | nil => rfl
  | cons n ns ih =>
    simp only [resolveAll, searchMovie_rate_limit_body n u now σ (hσ n), ih,
      List.map_cons, List.length_cons, Prod.mk.injEq]
    refine ⟨trivial, trivial, by omega⟩

theorem fetchProviders_all_notFound (movies : List String) (st : ServerState) (now : Nat)
    (π : String → RapidResponse) :
    fetchProviders (movies.map (fun n => ⟨n, none⟩)) st now π =
      (.ok (movies.map (fun n => ⟨n, none, none⟩)), st, 0) := by
  induction movies with
  | nil => rfl
  | cons n ns ih => simp only [List.map_cons, fetchProviders, ih]

theorem buildServiceMap_all_none (ms : List String) :
    buildServiceMap (ms.map (fun n => ⟨n, none, none⟩)) = [] := by
  induction ms with
  | nil => rfl
  | cons n ns ih =>
    simp only [List.map_cons, buildServiceMap, List.foldl_cons]
    exact ih

/-- C1 (amended): a RateLimited/QuotaExceeded signal from the search gateway
does not short-circuit bundle analysis.  `searchMovie` swallows every search
failure — OMDb's rate-limit error body included — into `null`, so `analyze()`
returns a full report in which each such movie is merely marked not found;
only availability-gateway 429/402 failures abort the batch. -/
theorem bundle_search_rate_limit_full_report (movies : List String) (u : ApiUsage)
    (now : Nat) (σ : String → OmdbResponse) (π : String → RapidResponse)
    (hlen1 : movies.length ≠ 0) (hlen2 : movies.length ≤ 10)
    (hσ : ∀ q, σ q = .ok (some "Request limit reached!") none) :
    (bundleHandler movies ⟨[], u⟩ now σ π).1 =
      .report
        { totalMovies := movies.length, foundMovies := 0, notFoundMovies := movies
        , bestService := none, allServices := [], notOnAnySubscription := []
        , movieDetails := movies.map (fun n =>
            { searchQuery := n, title := none, year := none, found := false
            , subscriptionServices := [] }) } := by
  have hcond : (movies.length == 0 || decide (movies.length > 10)) = false := by
    simp only [Bool.or_eq_false_iff, beq_eq_false_iff_ne, decide_eq_false_iff_not]
    exact ⟨hlen1, by omega⟩
  simp only [bundleHandler, hcond, Bool.false_eq_true, if_false,
    resolveAll_rate_limit_body movies u now σ hσ,
    fetchProviders_all_notFound movies ⟨[], u⟩ now π]
  have hmap := buildServiceMap_all_none movies
  have hfound : (movies.map (fun n => (⟨n, none⟩ : MovieResult))).filter
      (fun m => m.found.isSome) = [] := by
    simp [List.filter_eq_nil_iff]
  have hnf : ((movies.map (fun n => (⟨n, none⟩ : MovieResult))).filter
      (fun m => m.found.isNone)).map (fun m => m.name) = movies := by
    rw [List.filter_eq_self.2 (by
      intro a ha
      rcases List.mem_map.1 ha with ⟨n, _, rfl⟩
      rfl)]
    simp [List.map_map, Function.comp_def]
  have hnos : notOnAnySub (movies.map (fun n => ⟨n, none, none⟩)) [] = [] := by
    simp [notOnAnySub, List.filter_eq_nil_iff]
  have hdet : (movies.map (fun n => (⟨n, none, none⟩ : MovieWith))).map toDetail
      = movies.map (fun n => ⟨n, none, none, false, []⟩) := by
    simp [List.map_map, Function.comp_def, toDetail]
  simp only [serviceEntriesOf, hmap, hfound, hnf, hnos, hdet, List.map_nil, sortRanked,
    List.length_nil, List.head?_nil]

theorem bundle_search_rate_limit_full_report_witness :
    (bundleHandler ["a", "b"] ⟨[], ⟨none, none, 0, 0⟩⟩ 0 omdbRateLimit rapid500).1 =
      .report { totalMovies := 2, foundMovies := 0, notFoundMovies := ["a", "b"]
              , bestService := none, allServices := [], notOnAnySubscription := []
              , movieDetails := [⟨"a", none, none, false, []⟩, ⟨"b", none, none, false, []⟩] } := by
  have h := bundle_search_rate_limit_full_report ["a", "b"] ⟨none, none, 0, 0⟩ 0
    omdbRateLimit rapid500 (by decide) (by decide) (fun q => rfl)
  exact h

/-- An availability upstream that always answers HTTP 404. -/
def rapid404 : String → RapidResponse := fun _ => .httpError (some 404)

/-- C4 counterexample: on the bundle helper path, a 404 ("title unknown") from
the availability upstream yields a success whose body carries no
`notFound = true` flag, contrary to the claim that every availability-lookup
path marks it. -/
theorem helper_404_lacks_notFound_flag :
    (getProvidersForMovie "tt0000001" stEmpty 0 rapid404).1 = .ok emptyAvail ∧
    emptyAvail.notFound = false := ⟨rfl, rfl⟩

/-- C4 (amended): a "title unknown" 404 from the availability upstream is
success on every lookup path — never a failure — with empty option lists; but
only the direct `/api/providers` route sets `notFound = true`, while the bundle
helper returns the plain empty body without the flag. -/
theorem availability_404_is_success (id : String) (st : ServerState) (now : Nat)
    (π : String → RapidResponse)
    (hmiss : (getFromCache st.cache (providersKeyOf id) now).1 = none)
    (hπ : π id = .httpError (some 404)) :
    (providersHandler id st now π).1 = .okBody notFoundAvail ∧
    notFoundAvail.notFound = true ∧ notFoundAvail.flatrate = [] ∧
    notFoundAvail.rent = [] ∧ notFoundAvail.buy = [] ∧
    (getProvidersForMovie id st now π).1 = .ok emptyAvail ∧
    emptyAvail.notFound = false := by
  refine ⟨?_, rfl, rfl, rfl, rfl, ?_, rfl⟩
  · simp only [providersHandler, hmiss, hπ]
    rfl
  · simp only [getProvidersForMovie, hmiss, hπ]
    rfl

theorem availability_404_is_success_witness :
    (providersHandler "tt0000001" stEmpty 0 rapid404).1 = .okBody notFoundAvail ∧
    notFoundAvail.notFound = true ∧ notFoundAvail.flatrate = [] ∧
    notFoundAvail.rent = [] ∧ notFoundAvail.buy = [] ∧
    (getProvidersForMovie "tt0000001" stEmpty 0 rapid404).1 = .ok emptyAvail ∧
    emptyAvail.notFound = false :=
  availability_404_is_success "tt0000001" stEmpty 0 rapid404 rfl rfl

/-- C8: the availability lookup classifies each raw record into
subscription/rent/buy by exact equality on its `type` discriminator, and a
record whose `type` matches none of the three is dropped from every list. -/
theorem classification_by_exact_type (id : String) (st : ServerState) (now : Nat)
    (π : String → RapidResponse) (l : Option String) (opts : List StreamingOption)
    (hdrs : RapidHeaders)
    (hmiss : (getFromCache st.cache (providersKeyOf id) now).1 = none)
    (hπ : π id = .ok l (some opts) hdrs) :
    (providersHandler id st now π).1 = .okBody (classifyBody l (some opts)) ∧
    (classifyBody l (some opts)).flatrate = opts.filter (fun o => o.type == "subscription") ∧
    (classifyBody l (some opts)).rent = opts.filter (fun o => o.type == "rent") ∧
    (classifyBody l (some opts)).buy = opts.filter (fun o => o.type == "buy") ∧
    (∀ o, o.type ≠ "subscription" → o.type ≠ "rent" → o.type ≠ "buy" →
      o ∉ (classifyBody l (some opts)).flatrate ∧
      o ∉ (classifyBody l (some opts)).rent ∧
      o ∉ (classifyBody l (some opts)).buy) := by
  refine ⟨?_, rfl, rfl, rfl, ?_⟩
  · simp only [providersHandler, hmiss, hπ]
  · intro o h1 h2 h3
    refine ⟨?_, ?_, ?_⟩ <;> simp [classifyBody, List.mem_filter, h1, h2, h3]

def optSubEx : StreamingOption := ⟨"subscription", some ⟨"netflix", some "Netflix"⟩⟩

def optRentEx : StreamingOption := ⟨"rent", some ⟨"youtube", some "YouTube"⟩⟩

def optUnkEx : StreamingOption := ⟨"unknown", some ⟨"mystery", some "Mystery"⟩⟩

def optsEx : List StreamingOption := [optSubEx, optRentEx, optUnkEx]

def rapidEx : String → RapidResponse := fun _ => .ok none (some optsEx) ⟨none, none⟩

theorem classification_by_exact_type_witness :
    (providersHandler "tt1" stEmpty 0 rapidEx).1 = .okBody (classifyBody none (some optsEx)) ∧
    (classifyBody none (some optsEx)).flatrate = [optSubEx] ∧
    (classifyBody none (some optsEx)).rent = [optRentEx] ∧
    (classifyBody none (some optsEx)).buy = [] ∧
    (optUnkEx ∉ (classifyBody none (some optsEx)).flatrate ∧
     optUnkEx ∉ (classifyBody none (some optsEx)).rent ∧
     optUnkEx ∉ (classifyBody none (some optsEx)).buy) := by
  have h := classification_by_exact_type "tt1" stEmpty 0 rapidEx none optsEx ⟨none, none⟩
    rfl rfl
  exact ⟨h.1, h.2.1.trans (by decide), h.2.2.1.trans (by decide), h.2.2.2.1.trans (by decide),
    h.2.2.2.2 optUnkEx (by decide) (by decide) (by decide)⟩

/-- C10: `/api/providers` and the bundle helper share the `providers:<imdbId>`
cache key, but the helper stores a body without the `link` field; so after an
id's availability is first fetched via a bundle, a `GET /api/providers/<id>`
within the TTL is served from the cache — no upstream call — and its body
carries no `link` field. -/
theorem bundle_cached_providers_lack_link (id : String) (st : ServerState)
    (now now2 : Nat) (π π2 : String → RapidResponse) (l : Option String)
    (opts : Option (List StreamingOption)) (hdrs : RapidHeaders)
    (hmiss : (getFromCache st.cache (providersKeyOf id) now).1 = none)
    (hπ : π id = .ok l opts hdrs)
    (httl : now2 - now ≤ CACHE_TTL) :
    (getProvidersForMovie id st now π).1 = .ok (helperBody opts) ∧
    (helperBody opts).link = none ∧
    (providersHandler id (getProvidersForMovie id st now π).2.1 now2 π2).1 =
      .okBody (helperBody opts) ∧
    (providersHandler id (getProvidersForMovie id st now π).2.1 now2 π2).2.2 = 0 := by
  have h1 : getProvidersForMovie id st now π =
      (.ok (helperBody opts),
        ⟨setCache (getFromCache st.cache (providersKeyOf id) now).2 (providersKeyOf id) now
            (.providersV (helperBody opts)), updateRapidApiUsage st.usage hdrs⟩, 1) := by
    simp only [getProvidersForMovie, hmiss, hπ]
  have hnot : ¬ (now2 - now > CACHE_TTL) := by omega
  have h2 : providersHandler id (getProvidersForMovie id st now π).2.1 now2 π2 =
      (.okBody (helperBody opts), (getProvidersForMovie id st now π).2.1, 0) := by
    rw [h1]
    simp only [providersHandler, getFromCache, cacheLookup_setCache_self, if_neg hnot]
  exact ⟨by rw [h1], rfl, by rw [h2], by rw [h2]⟩

theorem bundle_cached_providers_lack_link_witness :
    (getProvidersForMovie "tt1" stEmpty 0 rapidEx).1 = .ok (helperBody (some optsEx)) ∧
    (helperBody (some optsEx)).link = none ∧
    (providersHandler "tt1" (getProvidersForMovie "tt1" stEmpty 0 rapidEx).2.1 5 rapid404).1 =
      .okBody (helperBody (some optsEx)) ∧
    (providersHandler "tt1" (getProvidersForMovie "tt1" stEmpty 0 rapidEx).2.1 5 rapid404).2.2
      = 0 :=
  bundle_cached_providers_lack_link "tt1" stEmpty 0 5 rapidEx rapid404 none (some optsEx)
    ⟨none, none⟩ rfl rfl (by decide)

theorem mem_insertRanked {a x : ServiceEntry} {l : List ServiceEntry} :
    a ∈ insertRanked x l ↔ a = x ∨ a ∈ l := by
  induction l with
  | nil => simp [insertRanked]
  | cons y ys ih =>
    simp only [insertRanked]
    split
    · simp only [List.mem_cons, ih]
      try tauto
    · simp only [List.mem_cons]
      try tauto

theorem mem_sortRanked {a : ServiceEntry} {l : List ServiceEntry} :
    a ∈ sortRanked l ↔ a ∈ l := by
  induction l with
  | nil => simp [sortRanked]
  | cons x xs ih => simp [sortRanked, mem_insertRanked, ih]

/-- `(200c + t) / (2t)` in natural division is the round-half-up of
`100c / t`, which is what `Math.round` computes on the nonnegative reachable
inputs. -/
theorem jsCoverage_eq_round (c t : Nat) (ht : 0 < t) :
    (jsCoverage c t : ℤ) = round ((100 * (c : ℚ)) / (t : ℚ)) := by
  have h2t : 0 < 2 * t := by omega
  have hdm := Nat.div_add_mod (200 * c + t) (2 * t)
  have hmod := Nat.mod_lt (200 * c + t) h2t
  set k := (200 * c + t) / (2 * t) with hk
  have hexp : 2 * t * (k + 1) = 2 * t * k + 2 * t := by ring
  have hb1 : k * (2 * t) ≤ 200 * c + t := by
    rw [Nat.mul_comm k (2 * t)]
    omega
  have hb2 : 200 * c + t < (k + 1) * (2 * t) := by
    rw [Nat.mul_comm (k + 1) (2 * t)]
    omega
  have htq : (0 : ℚ) < ((2 * t : ℕ) : ℚ) := by
    exact_mod_cast h2t
  have hx : (100 * (c : ℚ)) / (t : ℚ) + 1 / 2 =
      ((200 * c + t : ℕ) : ℚ) / ((2 * t : ℕ) : ℚ) := by
    have ht' : ((t : ℚ)) ≠ 0 := by
      exact_mod_cast Nat.pos_iff_ne_zero.1 ht
    push_cast
    field_simp
    ring
  have hfl : ⌊((200 * c + t : ℕ) : ℚ) / ((2 * t : ℕ) : ℚ)⌋ = (k : ℤ) := by
    rw [Int.floor_eq_iff]
    constructor
    · rw [le_div_iff₀ htq]
      exact_mod_cast hb1
    · rw [div_lt_iff₀ htq]
      exact_mod_cast hb2
  rw [round_eq, hx, hfl]
  exact_mod_cast rfl

theorem bundleHandler_report_inv (movies : List String) (st : ServerState) (now : Nat)
    (σ : String → OmdbResponse) (π : String → RapidResponse) (r : BundleReport)
    (hb : (bundleHandler movies st now σ π).1 = .report r) :
    movies.length ≠ 0 ∧ movies.length ≤ 10 ∧
    ∃ mp, (fetchProviders (resolveAll movies st now σ).1
        (resolveAll movies st now σ).2.1 now π).1 = .ok mp ∧
      r.allServices = sortRanked (serviceEntriesOf mp movies.length) ∧
      r.totalMovies = movies.length := by
  unfold bundleHandler at hb
  by_cases hc : (movies.length == 0 || decide (movies.length > 10)) = true
  · rw [if_pos hc] at hb
    cases hb
  · rw [if_neg hc] at hb
    have h0 : movies.length ≠ 0 ∧ movies.length ≤ 10 := by
      simp only [Bool.or_eq_true, beq_iff_eq, decide_eq_true_eq, not_or] at hc
      omega
    dsimp only at hb
    rcases hf : (fetchProviders (resolveAll movies st now σ).1
        (resolveAll movies st now σ).2.1 now π).1 with s | mp
    · rw [hf] at hb
      cases hb
    · rw [hf] at hb
      refine ⟨h0.1, h0.2, mp, rfl, ?_, ?_⟩ <;>
        · injection hb with hr
          rw [← hr]

/-- C7: every `serviceRanking` entry's coverage percent is the rounding of
`100 * coveredCount / totalRequested`, where `totalRequested` is the number of
names in the bundle request (not-found names included) and `coveredCount` is
the number of covered titles. -/
theorem coverage_is_rounded_percent (movies : List String) (st : ServerState) (now : Nat)
    (σ : String → OmdbResponse) (π : String → RapidResponse) (r : BundleReport)
    (e : ServiceEntry)
    (hb : (bundleHandler movies st now σ π).1 = .report r)
    (he : e ∈ r.allServices) :
    e.movieCount = e.movies.length ∧
    (e.coverage : ℤ) = round ((100 * (e.movieCount : ℚ)) / (movies.length : ℚ)) := by
  obtain ⟨h0, -, mp, -, hAll, -⟩ := bundleHandler_report_inv movies st now σ π r hb
  rw [hAll, mem_sortRanked] at he
  rcases List.mem_map.1 he with ⟨⟨k, ts⟩, hmem, rfl⟩
  exact ⟨rfl, jsCoverage_eq_round ts.length movies.length (Nat.pos_of_ne_zero h0)⟩

def movEx : OmdbMovie := ⟨"tt0001", "Movie1", "2000", "p"⟩

def sigOne : String → OmdbResponse := fun _ => .ok none (some [movEx])

def rapidOne : String → RapidResponse :=
  fun _ => .ok none (some [⟨"subscription", some ⟨"netflix", some "Netflix"⟩⟩]) ⟨none, none⟩

def entryOne : ServiceEntry := ⟨"Netflix", 1, ["Movie1"], 100⟩

def repOne : BundleReport :=
  ⟨1, 1, [], some entryOne, [entryOne], [],
    [⟨"m1", some "Movie1", some "2000", true, ["Netflix"]⟩]⟩

theorem coverage_is_rounded_percent_witness :
    entryOne.movieCount = entryOne.movies.length ∧
    (entryOne.coverage : ℤ) =
      round ((100 * (entryOne.movieCount : ℚ)) / ((["m1"] : List String).length : ℚ)) :=
  coverage_is_rounded_percent ["m1"] stEmpty 0 sigOne rapidOne repOne entryOne
    (by decide) (by decide)

theorem pairwise_insertRanked {x : ServiceEntry} {l : List ServiceEntry}
    (h : l.Pairwise (fun a b => b.movieCount ≤ a.movieCount)) :
    (insertRanked x l).Pairwise (fun a b => b.movieCount ≤ a.movieCount) := by
  induction l with
  | nil => simp [insertRanked]
  | cons y ys ih =>
    rcases List.pairwise_cons.1 h with ⟨hy, hys⟩
    simp only [insertRanked]
    split
    · rename_i hlt
      refine List.pairwise_cons.2 ⟨?_, ih hys⟩
      intro b hb
      rcases mem_insertRanked.1 hb with rfl | hb'
      · omega
      · exact hy b hb'
    · rename_i hnlt
      refine List.pairwise_cons.2 ⟨?_, h⟩
      intro b hb
      rcases List.mem_cons.1 hb with rfl | hb'
      · omega
      · have := hy b hb'
        omega

theorem pairwise_sortRanked (l : List ServiceEntry) :
    (sortRanked l).Pairwise (fun a b => b.movieCount ≤ a.movieCount) := by
  induction l with
  | nil => simp [sortRanked]
  | cons x xs ih => exact pairwise_insertRanked ih

theorem filter_insertRanked (x : ServiceEntry) (l : List ServiceEntry) (c : Nat) :
    (insertRanked x l).filter (fun e => e.movieCount == c) =
      (x :: l).filter (fun e => e.movieCount == c) := by
  induction l with
  | nil => rfl
  | cons y ys ih =>
    simp only [insertRanked]
    split
    · rename_i hlt
      by_cases hx : (x.movieCount == c) = true
      · have hxeq : x.movieCount = c := by simpa using hx
        have hy : (y.movieCount == c) = false := by
          simp only [beq_eq_false_iff_ne]
          omega
        simp only [List.filter_cons, hx, hy, if_true, if_false, ih,
          Bool.false_eq_true]
      · simp only [List.filter_cons, hx, ih, Bool.false_eq_true, if_false]
    · rfl

theorem filter_sortRanked (l : List ServiceEntry) (c : Nat) :
    (sortRanked l).filter (fun e => e.movieCount == c) =
      l.filter (fun e => e.movieCount == c) := by
  induction l with
  | nil => rfl
  | cons x xs ih =>
    rw [sortRanked, filter_insertRanked, List.filter_cons, List.filter_cons, ih]

/-- C6: in every bundle report, `serviceRanking` is sorted descending by
covered-title count, and the entries of each equal count appear in exactly the
order their services were first encountered while scanning the movies in input
order (the order of the pre-sort `serviceEntriesOf` list).  The embedding is a
pure function of its inputs, so repeated runs on the same input are
identical. -/
theorem ranking_sorted_and_stable (movies : List String) (st : ServerState) (now : Nat)
    (σ : String → OmdbResponse) (π : String → RapidResponse) (r : BundleReport)
    (mp : List MovieWith)
    (hb : (bundleHandler movies st now σ π).1 = .report r)
    (hf : (fetchProviders (resolveAll movies st now σ).1
        (resolveAll movies st now σ).2.1 now π).1 = .ok mp) :
    r.allServices.Pairwise (fun a b => b.movieCount ≤ a.movieCount) ∧
    ∀ c : Nat, r.allServices.filter (fun e => e.movieCount == c) =
      (serviceEntriesOf mp movies.length).filter (fun e => e.movieCount == c) := by
  obtain ⟨-, -, mp', hf', hAll, -⟩ := bundleHandler_report_inv movies st now σ π r hb
  rw [hf] at hf'
  injection hf' with hmp
  subst hmp
  rw [hAll]
  exact ⟨pairwise_sortRanked _, fun c => filter_sortRanked _ c⟩

def mpOne : List MovieWith :=
  [⟨"m1", some ⟨"tt0001", "Movie1", "2000", "p"⟩,
    some ⟨none, [⟨"subscription", some ⟨"netflix", some "Netflix"⟩⟩], [], [], false, none⟩⟩]

theorem ranking_sorted_and_stable_witness :
    repOne.allServices.Pairwise (fun a b => b.movieCount ≤ a.movieCount) ∧
    repOne.allServices.filter (fun e => e.movieCount == 1) =
      (serviceEntriesOf mpOne (["m1"] : List String).length).filter
        (fun e => e.movieCount == 1) := by
  have h := ranking_sorted_and_stable ["m1"] stEmpty 0 sigOne rapidOne repOne mpOne
    (by decide) (by rfl)
  exact ⟨h.1, h.2 1⟩

theorem searchKey_ne_providersKey (a b : String) : "search:" ++ a ≠ "providers:" ++ b := by
  intro h
  have hd : ("search:" ++ a).data = ("providers:" ++ b).data := congrArg String.data h
  rw [String.data_append, String.data_append] at hd
  simp at hd

/-- Every key of the cache is a `search:` key (as after any run that only ever
resolved searches). -/
def searchKeysOnly (c : Cache) : Prop := ∀ e ∈ c, ∃ a, e.1 = "search:" ++ a

theorem getFromCache_providers_miss {c : Cache} (h : searchKeysOnly c)
    (imdbId : String) (now : Nat) :
    getFromCache c (providersKeyOf imdbId) now = (none, c) := by
  have hl : cacheLookup c (providersKeyOf imdbId) = none := by
    rw [cacheLookup, Option.map_eq_none', List.find?_eq_none]
    intro x hx
    rcases h x hx with ⟨a, ha⟩
    simp only [ha, providersKeyOf, beq_iff_eq]
    exact searchKey_ne_providersKey a imdbId
  rw [getFromCache, hl]

theorem searchKeysOnly_deleteKey {c : Cache} (h : searchKeysOnly c) (k : String) :
    searchKeysOnly (cacheDeleteKey c k) := by
  intro e he
  exact h e (List.mem_of_mem_filter he)

theorem searchKeysOnly_getFromCache {c : Cache} (h : searchKeysOnly c) (k : String)
    (now : Nat) : searchKeysOnly (getFromCache c k now).2 := by
  rw [getFromCache]
  rcases cacheLookup c k with _ | ⟨t, v⟩
  · exact h
  · dsimp only
    split
    · exact searchKeysOnly_deleteKey h k
    · exact h

theorem searchKeysOnly_setSearch {c : Cache} (h : searchKeysOnly c) (q : String)
    (now : Nat) (v : CacheValue) :
    searchKeysOnly (setCache c (searchKeyOf q) now v) := by
  intro e he
  rcases List.mem_cons.1 he with rfl | he'
  · exact ⟨q.toLower.trim, rfl⟩
  · exact searchKeysOnly_deleteKey h _ e he'

theorem searchMovie_cache_cases (q : String) (st : ServerState) (now : Nat)
    (σ : String → OmdbResponse) :
    ((searchMovie q st now σ).2.1).cache = (getFromCache st.cache (searchKeyOf q) now).2 ∨
    ∃ v, ((searchMovie q st now σ).2.1).cache =
      setCache (getFromCache st.cache (searchKeyOf q) now).2 (searchKeyOf q) now v := by
  unfold searchMovie
  dsimp only
  repeat' split
  all_goals first
    | exact Or.inl rfl
    | exact Or.inr ⟨_, rfl⟩

theorem searchMovie_searchKeysOnly {st : ServerState} (h : searchKeysOnly st.cache)
    (q : String) (now : Nat) (σ : String → OmdbResponse) :
    searchKeysOnly ((searchMovie q st now σ).2.1).cache := by
  have hg := searchKeysOnly_getFromCache h (searchKeyOf q) now
  rcases searchMovie_cache_cases q st now σ with hc | ⟨v, hc⟩
  · rw [hc]
    exact hg
  · rw [hc]
    exact searchKeysOnly_setSearch hg q now v

theorem resolveAll_searchKeysOnly {st : ServerState} (h : searchKeysOnly st.cache)
    (names : List String) (now : Nat) (σ : String → OmdbResponse) :
    searchKeysOnly ((resolveAll names st now σ).2.1).cache := by
  induction names generalizing st with
  | nil => exact h
  | cons n ns ih =>
    simp only [resolveAll]
    exact ih (searchMovie_searchKeysOnly h n now σ)

theorem getProvidersForMovie_systemic (imdbId : String) (st : ServerState) (now : Nat)
    (π : String → RapidResponse) (s : Nat)
    (hmiss : (getFromCache st.cache (providersKeyOf imdbId) now).1 = none)
    (hs : s = 429 ∨ s = 402)
    (hπ : π imdbId = .httpError (some s)) :
    getProvidersForMovie imdbId st now π =
      (.error s, ⟨(getFromCache st.cache (providersKeyOf imdbId) now).2, st.usage⟩, 1) := by
  rcases hs with rfl | rfl <;> simp only [getProvidersForMovie, hmiss, hπ] <;> rfl

theorem getProvidersForMovie_tolerated (imdbId : String) (st : ServerState) (now : Nat)
    (π : String → RapidResponse) (s : Option Nat)
    (hmiss : (getFromCache st.cache (providersKeyOf imdbId) now).1 = none)
    (hs1 : s ≠ some 429) (hs2 : s ≠ some 402)
    (hπ : π imdbId = .httpError s) :
    getProvidersForMovie imdbId st now π =
      (.ok emptyAvail, ⟨(getFromCache st.cache (providersKeyOf imdbId) now).2, st.usage⟩, 1) := by
  have h1 : (s == some 429) = false := by simpa using hs1
  have h2 : (s == some 402) = false := by simpa using hs2
  simp only [getProvidersForMovie, hmiss, hπ, h1, h2, Bool.false_eq_true, if_false]

theorem fetchProviders_systemic (rs : List MovieResult) (st : ServerState) (now : Nat)
    (π : String → RapidResponse) (s : Nat)
    (hs : s = 429 ∨ s = 402)
    (hπ : ∀ imdbId, π imdbId = .httpError (some s))
    (hkeys : searchKeysOnly st.cache)
    (hfound : ∃ r ∈ rs, r.found.isSome) :
    (fetchProviders rs st now π).1 = .error s := by
  induction rs generalizing st with
  | nil =>
    rcases hfound with ⟨r, hmem, -⟩
    cases hmem
  | cons r rest ih =>
    rcases hr : r.found with _ | m
    · have hf' : ∃ x ∈ rest, x.found.isSome := by
        rcases hfound with ⟨x, hx, hxs⟩
        rcases List.mem_cons.1 hx with rfl | hx'
        · rw [hr] at hxs
          cases hxs
        · exact ⟨x, hx', hxs⟩
      simp only [fetchProviders, hr]
      rw [ih st hkeys hf']
    · have hget := getFromCache_providers_miss hkeys m.id now
      have hmiss : (getFromCache st.cache (providersKeyOf m.id) now).1 = none := by
        rw [hget]
      have hcall := getProvidersForMovie_systemic m.id st now π s hmiss hs (hπ m.id)
      simp only [fetchProviders, hr, hcall]

theorem fetchProviders_tolerated (rs : List MovieResult) (st : ServerState) (now : Nat)
    (π : String → RapidResponse)
    (hπ : ∀ imdbId, ∃ s, π imdbId = .httpError s ∧ s ≠ some 429 ∧ s ≠ some 402)
    (hkeys : searchKeysOnly st.cache) :
    (fetchProviders rs st now π).1 =
      .ok (rs.map fun r => ⟨r.name, r.found, r.found.map (fun _ => emptyAvail)⟩) ∧
    (fetchProviders rs st now π).2.1 = st := by
  induction rs generalizing st with
  | nil => exact ⟨rfl, rfl⟩
  | cons r rest ih =>
    rcases hr : r.found with _ | m
    · obtain ⟨ih1, ih2⟩ := ih st hkeys
      simp only [fetchProviders, hr, ih1, ih2, List.map_cons]
      exact ⟨by simp [hr], trivial⟩
    · obtain ⟨s, hπs, h1, h2⟩ := hπ m.id
      have hget := getFromCache_providers_miss hkeys m.id now
      have hmiss : (getFromCache st.cache (providersKeyOf m.id) now).1 = none := by
        rw [hget]
      have hcall := getProvidersForMovie_tolerated m.id st now π s hmiss h1 h2 hπs
      have hg2 : (getFromCache st.cache (providersKeyOf m.id) now).2 = st.cache := by
        rw [hget]
      have hEta : (⟨st.cache, st.usage⟩ : ServerState) = st := rfl
      obtain ⟨ih1, ih2⟩ := ih st hkeys
      simp only [fetchProviders, hr, hcall, hg2, hEta, ih1, ih2, List.map_cons]
      exact ⟨by simp [hr], trivial⟩

theorem buildServiceMap_tolerated (rs : List MovieResult) :
    buildServiceMap (rs.map fun r => ⟨r.name, r.found, r.found.map (fun _ => emptyAvail)⟩)
      = [] := by
  induction rs with
  | nil => rfl
  | cons r rest ih =>
    simp only [List.map_cons, buildServiceMap, List.foldl_cons]
    cases hr : r.found <;>
      · simp only [hr, Option.map_none', Option.map_some', addMovieToMap, emptyAvail,
          List.foldl_nil]
        exact ih

theorem bundle_systemic_short_circuit (movies : List String) (st : ServerState) (now : Nat)
    (σ : String → OmdbResponse) (π : String → RapidResponse) (s : Nat)
    (h0 : movies.length ≠ 0) (h10 : movies.length ≤ 10)
    (hkeys : searchKeysOnly st.cache)
    (hs : s = 429 ∨ s = 402)
    (hπ : ∀ imdbId, π imdbId = .httpError (some s))
    (hfound : ∃ m ∈ (resolveAll movies st now σ).1, m.found.isSome) :
    (bundleHandler movies st now σ π).1 = .rateLimitedOut s := by
  have hcond : (movies.length == 0 || decide (movies.length > 10)) = false := by
    simp only [Bool.or_eq_false_iff, beq_eq_false_iff_ne, decide_eq_false_iff_not]
    exact ⟨h0, by omega⟩
  have hkeys1 := resolveAll_searchKeysOnly hkeys movies now σ
  have herr := fetchProviders_systemic (resolveAll movies st now σ).1
    (resolveAll movies st now σ).2.1 now π s hs hπ hkeys1 hfound
  simp only [bundleHandler, hcond, Bool.false_eq_true, if_false, herr]
  rcases hs with rfl | rfl <;> rfl

theorem bundle_tolerated_degrades (movies : List String) (st : ServerState) (now : Nat)
    (σ : String → OmdbResponse) (π : String → RapidResponse)
    (h0 : movies.length ≠ 0) (h10 : movies.length ≤ 10)
    (hkeys : searchKeysOnly st.cache)
    (hπ : ∀ imdbId, ∃ s, π imdbId = .httpError s ∧ s ≠ some 429 ∧ s ≠ some 402) :
    ∃ r, (bundleHandler movies st now σ π).1 = .report r ∧
      r.allServices = [] ∧
      (∀ d ∈ r.movieDetails, d.subscriptionServices = []) ∧
      r.foundMovies =
        ((resolveAll movies st now σ).1.filter (fun m => m.found.isSome)).length := by
  have hcond : (movies.length == 0 || decide (movies.length > 10)) = false := by
    simp only [Bool.or_eq_false_iff, beq_eq_false_iff_ne, decide_eq_false_iff_not]
    exact ⟨h0, by omega⟩
  have hkeys1 := resolveAll_searchKeysOnly hkeys movies now σ
  obtain ⟨hf1, hf2⟩ := fetchProviders_tolerated (resolveAll movies st now σ).1
    (resolveAll movies st now σ).2.1 now π hπ hkeys1
  simp only [bundleHandler, hcond, Bool.false_eq_true, if_false, hf1]
  refine ⟨_, rfl, ?_, ?_, rfl⟩
  · simp [serviceEntriesOf, buildServiceMap_tolerated, sortRanked]
  · intro d hd
    rcases List.mem_map.1 hd with ⟨m, hm, rfl⟩
    rcases List.mem_map.1 hm with ⟨r, hr, rfl⟩
    cases r.found <;> rfl

/-- An availability upstream that always answers HTTP 429. -/
def rapid429 : String → RapidResponse := fun _ => .httpError (some 429)

/-- C5: during bundle analysis, a per-movie availability lookup failing with
429 (RateLimited) or 402 (QuotaExceeded) throws, aborting the whole batch with
that same failure kind; any other availability failure is tolerated by
substituting the empty result for that movie alone, leaving the shared state —
and hence every other movie's lookup — untouched. -/
theorem bundle_availability_failure_policy :
    (∀ imdbId st now π s, (getFromCache st.cache (providersKeyOf imdbId) now).1 = none →
      (s = 429 ∨ s = 402) → π imdbId = .httpError (some s) →
      getProvidersForMovie imdbId st now π =
        (.error s, ⟨(getFromCache st.cache (providersKeyOf imdbId) now).2, st.usage⟩, 1)) ∧
    (∀ imdbId st now π s, (getFromCache st.cache (providersKeyOf imdbId) now).1 = none →
      s ≠ some 429 → s ≠ some 402 → π imdbId = .httpError s →
      getProvidersForMovie imdbId st now π =
        (.ok emptyAvail, ⟨(getFromCache st.cache (providersKeyOf imdbId) now).2, st.usage⟩, 1)) ∧
    (∀ movies st now σ π s, movies.length ≠ 0 → movies.length ≤ 10 →
      searchKeysOnly st.cache → (s = 429 ∨ s = 402) →
      (∀ imdbId, π imdbId = .httpError (some s)) →
      (∃ m ∈ (resolveAll movies st now σ).1, m.found.isSome) →
      (bundleHandler movies st now σ π).1 = .rateLimitedOut s) ∧
    (∀ movies st now σ π, movies.length ≠ 0 → movies.length ≤ 10 →
      searchKeysOnly st.cache →
      (∀ imdbId, ∃ s, π imdbId = .httpError s ∧ s ≠ some 429 ∧ s ≠ some 402) →
      ∃ r, (bundleHandler movies st now σ π).1 = .report r ∧
        r.allServices = [] ∧
        (∀ d ∈ r.movieDetails, d.subscriptionServices = []) ∧
        r.foundMovies =
          ((resolveAll movies st now σ).1.filter (fun m => m.found.isSome)).length) := by
  refine ⟨?_, ?_, ?_, ?_⟩
  · intro imdbId st now π s hmiss hs hπ
    exact getProvidersForMovie_systemic imdbId st now π s hmiss hs hπ
  · intro imdbId st now π s hmiss h1 h2 hπ
    exact getProvidersForMovie_tolerated imdbId st now π s hmiss h1 h2 hπ
  · intro movies st now σ π s h0 h10 hkeys hs hπ hfound
    exact bundle_systemic_short_circuit movies st now σ π s h0 h10 hkeys hs hπ hfound
  · intro movies st now σ π h0 h10 hkeys hπ
    exact bundle_tolerated_degrades movies st now σ π h0 h10 hkeys hπ

theorem bundle_availability_failure_policy_witness :
    getProvidersForMovie "tt1" stEmpty 0 rapid429 =
      (.error 429, ⟨(getFromCache stEmpty.cache (providersKeyOf "tt1") 0).2,
        stEmpty.usage⟩, 1) ∧
    getProvidersForMovie "tt1" stEmpty 0 rapid500 =
      (.ok emptyAvail, ⟨(getFromCache stEmpty.cache (providersKeyOf "tt1") 0).2,
        stEmpty.usage⟩, 1) ∧
    (bundleHandler ["m1"] stEmpty 0 sigOne rapid429).1 = .rateLimitedOut 429 ∧
    (∃ r, (bundleHandler ["m1"] stEmpty 0 sigOne rapid500).1 = .report r ∧
      r.allServices = [] ∧
      (∀ d ∈ r.movieDetails, d.subscriptionServices = []) ∧
      r.foundMovies =
        ((resolveAll ["m1"] stEmpty 0 sigOne).1.filter (fun m => m.found.isSome)).length) := by
  have hkeys : searchKeysOnly stEmpty.cache := by
    intro e he
    cases he
  refine ⟨?_, ?_, ?_, ?_⟩
  · exact bundle_availability_failure_policy.1 "tt1" stEmpty 0 rapid429 429 rfl (Or.inl rfl) rfl
  · exact bundle_availability_failure_policy.2.1 "tt1" stEmpty 0 rapid500 (some 500) rfl
      (by decide) (by decide) rfl
  · exact bundle_availability_failure_policy.2.2.1 ["m1"] stEmpty 0 sigOne rapid429 429
      (by decide) (by decide) hkeys (Or.inl rfl) (fun _ => rfl) (by decide)
  · exact bundle_availability_failure_policy.2.2.2 ["m1"] stEmpty 0 sigOne rapid500
      (by decide) (by decide) hkeys (fun _ => ⟨some 500, rfl, by decide, by decide⟩)

theorem search_second_call_cached_witness :
    (searchHandler "Zed" stEmpty 0 sigOne).1 =
        .okBody (.searchV (([movEx].take 5).map toSummary)) ∧
    (searchHandler "Zed" stEmpty 0 sigOne).2.2 = 1 ∧
    (searchHandler "Zed" (searchHandler "Zed" stEmpty 0 sigOne).2.1 5 sigOne).1 =
        .okBody (.searchV (([movEx].take 5).map toSummary)) ∧
    (searchHandler "Zed" (searchHandler "Zed" stEmpty 0 sigOne).2.1 5 sigOne).2.2 = 0 :=
  search_second_call_cached "Zed" stEmpty 0 5 sigOne sigOne none movEx []
    (by decide) rfl rfl rfl (by decide)
